import Mathlib

/-!
Verification of the hospital-finder and helper logic of `streamlit_app.py`
(HealthCare AI Assistant).  The pure computational parts of the script are
embedded as Lean definitions over the real numbers and over character lists,
and the behavioural claims about them are settled as theorems.
-/

namespace HealthApp

/-! ## Distance computation (`haversine_km`, source lines 371-376) -/

/-- Degree-to-radian conversion, as `math.radians` used by the source. -/
noncomputable def radians (x : ℝ) : ℝ := x * Real.pi / 180

/-- The intermediate value `a` computed inside `haversine_km`
(source line 375): `a = sin(dlat/2)**2 + cos(radians(lat1)) *
cos(radians(lat2)) * sin(dlon/2)**2` with `dlat = radians(lat2 - lat1)`
and `dlon = radians(lon2 - lon1)`. -/
noncomputable def hav_a (lat1 lon1 lat2 lon2 : ℝ) : ℝ :=
  Real.sin (radians (lat2 - lat1) / 2) ^ 2 +
    Real.cos (radians lat1) * Real.cos (radians lat2) *
      Real.sin (radians (lon2 - lon1) / 2) ^ 2

/-- `haversine_km` from the source (lines 371-376): with `R = 6371.0`,
the result is `2 * R * asin(sqrt(a))`. -/
noncomputable def haversine_km (lat1 lon1 lat2 lon2 : ℝ) : ℝ :=
  2 * 6371.0 * Real.arcsin (Real.sqrt (hav_a lat1 lon1 lat2 lon2))

/-- Modelled from the spec: the haversine formula exactly as the spec words it
for `computeDistanceKm` (R = 6371.0 km, all angles in radians,
`a = sin²(Δlat/2) + cos(lat_a)·cos(lat_b)·sin²(Δlon/2)`,
`distance = 2·R·asin(√a)`).  Used only to compare against `haversine_km`. -/
noncomputable def computeDistanceKmSpec (lat1 lon1 lat2 lon2 : ℝ) : ℝ :=
  2 * 6371.0 *
    Real.arcsin (Real.sqrt
      (Real.sin (radians (lat2 - lat1) / 2) ^ 2 +
        Real.cos (radians lat1) * Real.cos (radians lat2) *
          Real.sin (radians (lon2 - lon1) / 2) ^ 2))

/-- Python `round(x, 2)`: the nearest multiple of `0.01`.  CPython rounds
half to even whereas Mathlib `round` rounds half up; the two differ only on
exact midpoint ties, which no input considered here produces. -/
noncomputable def round2 (x : ℝ) : ℝ := ((round (x * 100) : ℤ) : ℝ) / 100

/-- Division as Python executes it on floats: a zero divisor raises
`ZeroDivisionError`, modelled as `none`. -/
noncomputable def safeDiv (x y : ℝ) : Option ℝ :=
  if y = 0 then none else some (x / y)

/-- `haversine_km` with every division of the source routine performed by
`safeDiv`: the two divisions are `dlat/2` and `dlon/2` (line 375).
The result is `none` exactly when some division of the original code
would raise `ZeroDivisionError`. -/
noncomputable def haversine_km_checked (lat1 lon1 lat2 lon2 : ℝ) : Option ℝ := do
  let dlat := radians (lat2 - lat1)
  let dlon := radians (lon2 - lon1)
  let x ← safeDiv dlat 2
  let y ← safeDiv dlon 2
  let a := Real.sin x ^ 2 +
    Real.cos (radians lat1) * Real.cos (radians lat2) * Real.sin y ^ 2
  pure (2 * 6371.0 * Real.arcsin (Real.sqrt a))

/-! ### Helper lemmas about `haversine_km` -/

lemma haversine_km_def (lat1 lon1 lat2 lon2 : ℝ) :
    haversine_km lat1 lon1 lat2 lon2 =
      2 * 6371.0 * Real.arcsin (Real.sqrt (hav_a lat1 lon1 lat2 lon2)) := rfl

lemma haversine_nonneg (lat1 lon1 lat2 lon2 : ℝ) :
    0 ≤ haversine_km lat1 lon1 lat2 lon2 := by
  have h : 0 ≤ Real.arcsin (Real.sqrt (hav_a lat1 lon1 lat2 lon2)) :=
    Real.arcsin_nonneg.mpr (Real.sqrt_nonneg _)
  have : (0:ℝ) ≤ 2 * 6371.0 := by norm_num
  simpa [haversine_km] using mul_nonneg this h

lemma hav_a_symm (lat1 lon1 lat2 lon2 : ℝ) :
    hav_a lat2 lon2 lat1 lon1 = hav_a lat1 lon1 lat2 lon2 := by
  unfold hav_a radians
  rw [show lat1 - lat2 = -(lat2 - lat1) by ring,
      show lon1 - lon2 = -(lon2 - lon1) by ring]
  rw [show -(lat2 - lat1) * Real.pi / 180 = -((lat2 - lat1) * Real.pi / 180) by ring,
      show -(lon2 - lon1) * Real.pi / 180 = -((lon2 - lon1) * Real.pi / 180) by ring]
  rw [neg_div, neg_div, Real.sin_neg, Real.sin_neg]
  ring

lemma haversine_symm (lat1 lon1 lat2 lon2 : ℝ) :
    haversine_km lat2 lon2 lat1 lon1 = haversine_km lat1 lon1 lat2 lon2 := by
  unfold haversine_km
  rw [hav_a_symm]

lemma cos_radians_nonneg (lat : ℝ) (h1 : -90 ≤ lat) (h2 : lat ≤ 90) :
    0 ≤ Real.cos (radians lat) := by
  have hpi := Real.pi_pos
  apply Real.cos_nonneg_of_neg_pi_div_two_le_of_le
  · unfold radians
    nlinarith [mul_nonneg (by linarith : (0:ℝ) ≤ lat + 90) hpi.le]
  · unfold radians
    nlinarith [mul_nonneg (by linarith : (0:ℝ) ≤ 90 - lat) hpi.le]

lemma hav_a_nonneg (lat1 lon1 lat2 lon2 : ℝ)
    (h1 : -90 ≤ lat1) (h2 : lat1 ≤ 90) (h3 : -90 ≤ lat2) (h4 : lat2 ≤ 90) :
    0 ≤ hav_a lat1 lon1 lat2 lon2 := by
  have c1 := cos_radians_nonneg lat1 h1 h2
  have c2 := cos_radians_nonneg lat2 h3 h4
  have s1 : (0:ℝ) ≤ Real.sin (radians (lat2 - lat1) / 2) ^ 2 := sq_nonneg _
  have s2 : (0:ℝ) ≤ Real.sin (radians (lon2 - lon1) / 2) ^ 2 := sq_nonneg _
  unfold hav_a
  nlinarith [mul_nonneg (mul_nonneg c1 c2) s2]

lemma haversine_eq_zero_of_hav_a_eq_zero (lat1 lon1 lat2 lon2 : ℝ)
    (h : hav_a lat1 lon1 lat2 lon2 = 0) :
    haversine_km lat1 lon1 lat2 lon2 = 0 := by
  unfold haversine_km
  rw [h, Real.sqrt_zero, Real.arcsin_zero, mul_zero]

lemma lat_of_cos_radians_eq_zero (lat : ℝ) (h1 : -90 ≤ lat) (h2 : lat ≤ 90)
    (h : Real.cos (radians lat) = 0) : lat = 90 ∨ lat = -90 := by
  obtain ⟨k, hk⟩ := Real.cos_eq_zero_iff.mp h
  have hA : lat * Real.pi = (180 * (k:ℝ) + 90) * Real.pi := by
    unfold radians at hk
    nlinarith [hk]
  have hlat : lat = 180 * (k:ℝ) + 90 := mul_right_cancel₀ Real.pi_ne_zero hA
  have hk1 : (-1 : ℝ) ≤ (k:ℝ) := by nlinarith
  have hk2 : (k:ℝ) ≤ 0 := by nlinarith
  have hz : k = 0 ∨ k = -1 := by
    have l1 : (-1 : ℤ) ≤ k := by exact_mod_cast hk1
    have l2 : k ≤ (0 : ℤ) := by exact_mod_cast hk2
    omega
  rcases hz with hz | hz
  · left; rw [hlat, hz]; norm_num
  · right; rw [hlat, hz]; norm_num

lemma lat_diff_zero_of_sin_eq_zero (b : ℝ) (h1 : -180 ≤ b) (h2 : b ≤ 180)
    (h : Real.sin (radians b / 2) = 0) : b = 0 := by
  have hpi := Real.pi_pos
  have hlo : -Real.pi < radians b / 2 := by
    unfold radians
    nlinarith [mul_nonneg (by linarith : (0:ℝ) ≤ b + 180) hpi.le]
  have hhi : radians b / 2 < Real.pi := by
    unfold radians
    nlinarith [mul_nonneg (by linarith : (0:ℝ) ≤ 180 - b) hpi.le]
  have h0 : radians b / 2 = 0 := (Real.sin_eq_zero_iff_of_lt_of_lt hlo hhi).mp h
  have hbp : b * Real.pi = 0 := by
    unfold radians at h0
    linarith
  rcases mul_eq_zero.mp hbp with hb | hb
  · exact hb
  · exact absurd hb Real.pi_ne_zero

lemma lon_diff_of_sin_eq_zero (a : ℝ) (h1 : -360 ≤ a) (h2 : a ≤ 360)
    (h : Real.sin (radians a / 2) = 0) : a = 0 ∨ a = 360 ∨ a = -360 := by
  obtain ⟨n, hn⟩ := Real.sin_eq_zero_iff.mp h
  have hA : a * Real.pi = (360 * (n:ℝ)) * Real.pi := by
    unfold radians at hn
    nlinarith [hn]
  have ha : a = 360 * (n:ℝ) := mul_right_cancel₀ Real.pi_ne_zero hA
  have hn1 : (-1 : ℝ) ≤ (n:ℝ) := by nlinarith
  have hn2 : (n:ℝ) ≤ 1 := by nlinarith
  have hz : n = 0 ∨ n = 1 ∨ n = -1 := by
    have l1 : (-1 : ℤ) ≤ n := by exact_mod_cast hn1
    have l2 : n ≤ (1 : ℤ) := by exact_mod_cast hn2
    omega
  rcases hz with hz | hz | hz
  · left; rw [ha, hz]; norm_num
  · right; left; rw [ha, hz]; norm_num
  · right; right; rw [ha, hz]; norm_num

/-- Characterisation of the zeros of `haversine_km` on valid coordinate
ranges: the distance vanishes exactly when the two coordinate pairs denote
the same point of the sphere. -/
lemma haversine_eq_zero_iff (lat1 lon1 lat2 lon2 : ℝ)
    (ha1 : -90 ≤ lat1) (ha2 : lat1 ≤ 90) (hb1 : -90 ≤ lat2) (hb2 : lat2 ≤ 90)
    (hc1 : -180 ≤ lon1) (hc2 : lon1 ≤ 180) (hd1 : -180 ≤ lon2) (hd2 : lon2 ≤ 180) :
    haversine_km lat1 lon1 lat2 lon2 = 0 ↔
      (lat1 = lat2 ∧ (lon1 = lon2 ∨ lat1 = 90 ∨ lat1 = -90 ∨
        lon1 - lon2 = 360 ∨ lon2 - lon1 = 360)) := by
  constructor
  · intro h
    have hnn := hav_a_nonneg lat1 lon1 lat2 lon2 ha1 ha2 hb1 hb2
    have h1 : Real.arcsin (Real.sqrt (hav_a lat1 lon1 lat2 lon2)) = 0 := by
      unfold haversine_km at h
      linarith
    have h2 : Real.sqrt (hav_a lat1 lon1 lat2 lon2) = 0 :=
      Real.arcsin_eq_zero_iff.mp h1
    have h3 : hav_a lat1 lon1 lat2 lon2 = 0 :=
      le_antisymm (Real.sqrt_eq_zero'.mp h2) hnn
    have c1 := cos_radians_nonneg lat1 ha1 ha2
    have c2 := cos_radians_nonneg lat2 hb1 hb2
    have s1 : (0:ℝ) ≤ Real.sin (radians (lat2 - lat1) / 2) ^ 2 := sq_nonneg _
    have s2 : (0:ℝ) ≤ Real.sin (radians (lon2 - lon1) / 2) ^ 2 := sq_nonneg _
    have hterm2 : (0:ℝ) ≤ Real.cos (radians lat1) * Real.cos (radians lat2) *
        Real.sin (radians (lon2 - lon1) / 2) ^ 2 :=
      mul_nonneg (mul_nonneg c1 c2) s2
    unfold hav_a at h3
    have t1 : Real.sin (radians (lat2 - lat1) / 2) ^ 2 = 0 := by linarith
    have t2 : Real.cos (radians lat1) * Real.cos (radians lat2) *
        Real.sin (radians (lon2 - lon1) / 2) ^ 2 = 0 := by linarith
    have hs1 : Real.sin (radians (lat2 - lat1) / 2) = 0 := sq_eq_zero_iff.mp t1
    have hlat : lat1 = lat2 := by
      have := lat_diff_zero_of_sin_eq_zero (lat2 - lat1)
        (by linarith) (by linarith) hs1
      linarith
    refine ⟨hlat, ?_⟩
    rcases mul_eq_zero.mp t2 with hcc | hsv
    · rcases mul_eq_zero.mp hcc with hcz | hcz
      · rcases lat_of_cos_radians_eq_zero lat1 ha1 ha2 hcz with hp | hp
        · exact Or.inr (Or.inl hp)
        · exact Or.inr (Or.inr (Or.inl hp))
      · rcases lat_of_cos_radians_eq_zero lat2 hb1 hb2 hcz with hp | hp
        · exact Or.inr (Or.inl (by rw [hlat]; exact hp))
        · exact Or.inr (Or.inr (Or.inl (by rw [hlat]; exact hp)))
    · have hsv0 : Real.sin (radians (lon2 - lon1) / 2) = 0 := sq_eq_zero_iff.mp hsv
      rcases lon_diff_of_sin_eq_zero (lon2 - lon1)
          (by linarith) (by linarith) hsv0 with hz | hz | hz
      · exact Or.inl (by linarith)
      · exact Or.inr (Or.inr (Or.inr (Or.inr hz)))
      · exact Or.inr (Or.inr (Or.inr (Or.inl (by linarith))))
  · rintro ⟨hlat, hcase⟩
    apply haversine_eq_zero_of_hav_a_eq_zero
    have hz1 : Real.sin (radians (lat2 - lat1) / 2) = 0 := by
      rw [hlat]
      simp [radians]
    rcases hcase with hc | hc | hc | hc | hc
    · have hz2 : Real.sin (radians (lon2 - lon1) / 2) = 0 := by
        rw [hc]
        simp [radians]
      unfold hav_a
      rw [hz1, hz2]
      ring
    · have hzc : Real.cos (radians lat1) = 0 := by
        rw [hc]
        rw [show radians 90 = Real.pi / 2 by unfold radians; ring]
        exact Real.cos_pi_div_two
      unfold hav_a
      rw [hz1, hzc]
      ring
    · have hzc : Real.cos (radians lat1) = 0 := by
        rw [hc]
        rw [show radians (-90) = -(Real.pi / 2) by unfold radians; ring]
        rw [Real.cos_neg]
        exact Real.cos_pi_div_two
      unfold hav_a
      rw [hz1, hzc]
      ring
    · have hz2 : Real.sin (radians (lon2 - lon1) / 2) = 0 := by
        have : lon2 - lon1 = -360 := by linarith
        rw [this]
        rw [show radians (-360) / 2 = -Real.pi by unfold radians; ring]
        rw [Real.sin_neg, Real.sin_pi, neg_zero]
      unfold hav_a
      rw [hz1, hz2]
      ring
    · have hz2 : Real.sin (radians (lon2 - lon1) / 2) = 0 := by
        rw [hc]
        rw [show radians 360 / 2 = Real.pi by unfold radians; ring]
        exact Real.sin_pi
      unfold hav_a
      rw [hz1, hz2]
      ring

/-- On a common meridian (equal longitudes) with a northward latitude
difference of at most 180 degrees, the haversine distance reduces to arc
length `R * Δlat_radians`. -/
lemma haversine_same_lon (lat1 lat2 lon : ℝ)
    (h1 : 0 ≤ lat2 - lat1) (h2 : lat2 - lat1 ≤ 180) :
    haversine_km lat1 lon lat2 lon = 6371.0 * radians (lat2 - lat1) := by
  have hpi := Real.pi_pos
  have hz : Real.sin (radians (lon - lon) / 2) = 0 := by simp [radians]
  have ha : hav_a lat1 lon lat2 lon = Real.sin (radians (lat2 - lat1) / 2) ^ 2 := by
    unfold hav_a
    rw [hz]
    ring
  have hu1 : 0 ≤ radians (lat2 - lat1) / 2 := by
    unfold radians
    nlinarith [mul_nonneg h1 hpi.le]
  have hu2 : radians (lat2 - lat1) / 2 ≤ Real.pi / 2 := by
    unfold radians
    nlinarith [mul_nonneg (by linarith : (0:ℝ) ≤ 180 - (lat2 - lat1)) hpi.le]
  have hs : 0 ≤ Real.sin (radians (lat2 - lat1) / 2) :=
    Real.sin_nonneg_of_nonneg_of_le_pi hu1 (by linarith)
  unfold haversine_km
  rw [ha, Real.sqrt_sq hs, Real.arcsin_sin (by linarith) hu2]
  ring

lemma round2_eq_of_bounds (x : ℝ) (k : ℤ)
    (h1 : (k:ℝ) ≤ x * 100 + 1/2) (h2 : x * 100 + 1/2 < (k:ℝ) + 1) :
    round2 x = (k:ℝ) / 100 := by
  have hr : round (x * 100) = k := by
    rw [round_eq]
    exact Int.floor_eq_iff.mpr ⟨h1, by exact_mod_cast h2⟩
  unfold round2
  rw [hr]

/-! ## Hospital data rows and ranking (source lines 388-422) -/

/-- The fields of one Geoapify place result that the search handler reads
(source lines 390-393): `props.get("name")`, `props.get("formatted")`,
`props.get("lat")`, `props.get("lon")`.  A missing key yields Python
`None`, modelled as `none`. -/
structure HospitalProps where
  name : String
  address : String
  lat : Option ℝ
  lon : Option ℝ

/-- One entry of `data_rows` (source lines 396-403).  `approx` is the value
in the column `Approx. Distance (km)`: the 2-decimal rounding of the
haversine distance, or `none` for the string marker `N/A`.  The raw `lat`
and `lon` are carried along as in the source. -/
structure RankedRow where
  name : String
  address : String
  approx : Option ℝ
  lat : Option ℝ
  lon : Option ℝ

/-- Python truthiness of an optional float, as tested by
`if (h_lat and h_lon)` and `if lat and lon`: `None` and `0.0` are falsy. -/
def truthyFloat : Option ℝ → Prop
  | none => False
  | some x => x ≠ 0

/-- The geocode guard at source line 385: the handler proceeds only when
`lat and lon` is truthy, otherwise it reports a geocoding failure. -/
def geocodeUsable (lat lon : Option ℝ) : Prop :=
  truthyFloat lat ∧ truthyFloat lon

/-- Construction of one row of `data_rows` (source lines 393-403):
`approx_km = haversine_km(lat, lon, h_lat, h_lon) if (h_lat and h_lon)
else None`, stored as `round(approx_km, 2)` or as the `N/A` marker. -/
noncomputable def buildRow (olat olon : ℝ) (h : HospitalProps) : RankedRow :=
  { name := h.name
    address := h.address
    approx :=
      match h.lat, h.lon with
      | some hlat, some hlon =>
          if hlat ≠ 0 ∧ hlon ≠ 0 then
            some (round2 (haversine_km olat olon hlat hlon))
          else none
      | _, _ => none
    lat := h.lat
    lon := h.lon }

/-- The whole `data_rows` loop over `hospitals["features"]`. -/
noncomputable def buildRows (olat olon : ℝ) (hs : List HospitalProps) :
    List RankedRow :=
  hs.map (buildRow olat olon)

/-- The sort key used at source line 414:
`pd.to_numeric(s, errors="coerce")` turns the `N/A` marker into `NaN`,
which `sort_values` places last; modelled as the top element of
`WithTop ℝ`. -/
def sortKey (r : RankedRow) : WithTop ℝ :=
  match r.approx with
  | none => ⊤
  | some x => (x : WithTop ℝ)

/-- Row comparison by sort key. -/
def approxLE (r s : RankedRow) : Prop := sortKey r ≤ sortKey s

instance : IsTotal RankedRow approxLE :=
  ⟨fun a b => le_total (sortKey a) (sortKey b)⟩

instance : IsTrans RankedRow approxLE :=
  ⟨fun _ _ _ hab hbc => le_trans hab hbc⟩

noncomputable instance : DecidableRel approxLE :=
  fun _ _ => Classical.propDecidable _

/-- `df.sort_values(by="Approx. Distance (km)", key=pd.to_numeric(...,
errors="coerce"))` (source line 414).  Pandas `nargsort` keeps `NaN` rows
last in their input order, and the underlying numpy sort degenerates to a
stable insertion sort on the at most 10 rows the handler can produce
(places API `limit: 10`), so the call is modelled as a stable insertion
sort on the key of `sortKey`. -/
noncomputable def sortRows (l : List RankedRow) : List RankedRow :=
  List.insertionSort approxLE l

/-- `df_sorted.head(top_n)` (source line 415): the first `n` rows of the
sorted frame. -/
noncomputable def selectTopN (l : List RankedRow) (n : ℕ) : List RankedRow :=
  (sortRows l).take n

/-- The `Calculate driving distances` loop (source lines 416-420): for
each selected row the handler evaluates `float(row["lat"])` and
`float(row["lon"])`, consults the routing adapter, and records
`round(d, 2)` or the absent marker per row.  The output pairs every input
row, in order, with its `Driving Distance (km)` cell.  A row whose
coordinates are missing carries `NaN` in the float64 `lat`/`lon` columns
built by `pd.DataFrame`; `float(nan)` succeeds, the waypoint string built
from `nan` makes the routing request fail, and `get_route_distance_km`
returns `None`, so such a row gets the absent cell directly. -/
noncomputable def attachDriving (route : ℝ → ℝ → ℝ → ℝ → Option ℝ)
    (olat olon : ℝ) : List RankedRow → List (RankedRow × Option ℝ)
  | [] => []
  | r :: rs =>
    (r, match r.lat, r.lon with
        | some la, some lo => (route olat olon la lo).map round2
        | _, _ => none) :: attachDriving route olat olon rs

/-- The count of numerically ranked rows (those not carrying `N/A`). -/
def numericCount (l : List RankedRow) : ℕ :=
  (l.filter (fun r => r.approx.isSome)).length

/-- The rows of a list whose sort key equals `k`, in order. -/
noncomputable def filterKey (k : WithTop ℝ) : List RankedRow → List RankedRow
  | [] => []
  | r :: rs => if sortKey r = k then r :: filterKey k rs else filterKey k rs

/-! ### Helper lemmas about the ranking -/

lemma sortKey_eq_top_iff (r : RankedRow) : sortKey r = ⊤ ↔ r.approx = none := by
  cases h : r.approx with
  | none => simp [sortKey, h]
  | some x => simp [sortKey, h]

lemma sortRows_sorted (l : List RankedRow) :
    List.Sorted approxLE (sortRows l) :=
  List.sorted_insertionSort approxLE l

lemma sortRows_perm (l : List RankedRow) : List.Perm (sortRows l) l :=
  List.perm_insertionSort approxLE l

lemma filterKey_orderedInsert (k : WithTop ℝ) (a : RankedRow)
    (l : List RankedRow) :
    filterKey k (List.orderedInsert approxLE a l) =
      if sortKey a = k then a :: filterKey k l else filterKey k l := by
  induction l with
  | nil => simp [List.orderedInsert, filterKey]
  | cons b m ih =>
    by_cases hab : approxLE a b
    · have step : List.orderedInsert approxLE a (b :: m) = a :: b :: m := by
        simp only [List.orderedInsert]
        rw [if_pos hab]
      rw [step]
      simp only [filterKey]
    · have hba : sortKey b < sortKey a := not_le.mp hab
      have step : List.orderedInsert approxLE a (b :: m) =
          b :: List.orderedInsert approxLE a m := by
        simp only [List.orderedInsert]
        rw [if_neg hab]
      rw [step]
      by_cases hak : sortKey a = k
      · have hbk : ¬ sortKey b = k := by
          intro hbk
          rw [hak] at hba
          rw [hbk] at hba
          exact lt_irrefl _ hba
        simp only [filterKey]
        rw [if_neg hbk, if_pos hak, ih, if_pos hak, if_neg hbk]
      · by_cases hbk : sortKey b = k
        · simp only [filterKey]
          rw [if_pos hbk, if_neg hak, ih, if_neg hak, if_pos hbk]
        · simp only [filterKey]
          rw [if_neg hbk, if_neg hak, ih, if_neg hak, if_neg hbk]

/-- Stability of the ranking: for every key value, the rows carrying that
key appear in the sorted output exactly in their input order. -/
lemma filterKey_sortRows (k : WithTop ℝ) (l : List RankedRow) :
    filterKey k (sortRows l) = filterKey k l := by
  induction l with
  | nil => rfl
  | cons a m ih =>
    have step : sortRows (a :: m) =
        List.orderedInsert approxLE a (sortRows m) := rfl
    rw [step, filterKey_orderedInsert]
    by_cases hak : sortKey a = k
    · rw [if_pos hak, ih]
      simp only [filterKey]
      rw [if_pos hak]
    · rw [if_neg hak, ih]
      simp only [filterKey]
      rw [if_neg hak]

lemma sortRows_pair_of_le (a b : RankedRow) (h : approxLE a b) :
    sortRows [a, b] = [a, b] := by
  show List.orderedInsert approxLE a
    (List.orderedInsert approxLE b (List.insertionSort approxLE [])) = [a, b]
  simp only [List.insertionSort, List.orderedInsert]
  rw [if_pos h]

/-- A list sorted by `approxLE` splits into its numerically keyed prefix
followed by its `N/A` suffix. -/
lemma sorted_split_none (s : List RankedRow) (h : List.Sorted approxLE s) :
    ∃ A B : List RankedRow, s = A ++ B ∧
      (∀ r ∈ A, r.approx.isSome = true) ∧ (∀ r ∈ B, r.approx = none) := by
  induction s with
  | nil => exact ⟨[], [], rfl, by simp, by simp⟩
  | cons r s ih =>
    cases hr : r.approx with
    | none =>
      refine ⟨[], r :: s, rfl, by simp, ?_⟩
      intro x hx
      rcases List.mem_cons.mp hx with rfl | hx
      · exact hr
      · have hle : approxLE r x := List.rel_of_sorted_cons h x hx
        have hki : sortKey r = ⊤ := (sortKey_eq_top_iff r).mpr hr
        have hkx : sortKey x = ⊤ := by
          unfold approxLE at hle
          rw [hki] at hle
          exact top_le_iff.mp hle
        exact (sortKey_eq_top_iff x).mp hkx
    | some a =>
      obtain ⟨A, B, hAB, hA, hB⟩ := ih h.of_cons
      refine ⟨r :: A, B, by rw [List.cons_append, ← hAB], ?_, hB⟩
      intro x hx
      rcases List.mem_cons.mp hx with rfl | hx
      · rw [hr]
        rfl
      · exact hA x hx

lemma filter_isSome_of_split (A B : List RankedRow)
    (hA : ∀ r ∈ A, r.approx.isSome = true) (hB : ∀ r ∈ B, r.approx = none) :
    (A ++ B).filter (fun r => r.approx.isSome) = A := by
  rw [List.filter_append]
  have h1 : A.filter (fun r => r.approx.isSome) = A := List.filter_eq_self.mpr hA
  have h2 : B.filter (fun r => r.approx.isSome) = [] := by
    rw [List.filter_eq_nil_iff]
    intro x hx
    rw [hB x hx]
    simp
  rw [h1, h2, List.append_nil]

/-! ## Recipient email validation (`EMAIL_RE`, source lines 236 and 245) -/

/-- The whitespace class `\s` of Python regular expressions over `str`
(unicode semantics): the characters CPython treats as whitespace. -/
def pySpace (c : Char) : Bool :=
  c == ' ' || c == '\t' || c == '\n' || c == '\r' || c == '\x0b' ||
  c == '\x0c' || c == '\x1c' || c == '\x1d' || c == '\x1e' || c == '\x1f' ||
  c == '\x85' || c == '\xa0' || c == '\u1680' ||
  ('\u2000' ≤ c && c ≤ '\u200A') ||
  c == '\u2028' || c == '\u2029' || c == '\u202F' || c == '\u205F' ||
  c == '\u3000'

/-- A character matchable by the class `[^@\s]`. -/
def okChar (c : Char) : Bool := !(c == '@' || pySpace c)

/-- Whether a list contains a `.` that is neither its first nor its last
element, which for a run of `okChar` characters is exactly what
`[^@\s]+\.[^@\s]+` requires beyond okness. -/
def interiorDot (D : List Char) : Bool :=
  match D with
  | [] => false
  | _ :: rest => rest.dropLast.any (fun c => c == '.')

/-- Whether `^[^@\s]+@[^@\s]+\.[^@\s]+$` matches the whole character list,
not counting the final-newline allowance of `$`.  The part before the
first `@` must be a nonempty run of `okChar`; the part after it must be a
nonempty run of `okChar` containing a `.` that is neither its first nor
its last character. -/
def coreMatch (cs : List Char) : Bool :=
  match cs.dropWhile (fun c => c != '@') with
  | [] => false
  | x :: D => (x == '@') &&
      (!(cs.takeWhile (fun c => c != '@')).isEmpty) &&
      (cs.takeWhile (fun c => c != '@')).all okChar &&
      D.all okChar && interiorDot D

/-- Truthiness of `EMAIL_RE.match(email)` (source line 245): Python `$`
matches at the end of the string or just before one final newline. -/
def email_re_accepts (cs : List Char) : Bool :=
  coreMatch cs ||
    (match cs.getLast? with
     | some c => c == '\n' && coreMatch cs.dropLast
     | none => false)

lemma coreMatch_eq (cs : List Char) :
    coreMatch cs =
      (match cs.dropWhile (fun c => c != '@') with
       | [] => false
       | x :: D => (x == '@') &&
           (!(cs.takeWhile (fun c => c != '@')).isEmpty) &&
           (cs.takeWhile (fun c => c != '@')).all okChar &&
           D.all okChar && interiorDot D) := rfl

/-- Modelled from the spec: the set of strings of the form
local-part `@` domain-part `.` tld-part where every part is nonempty and
free of whitespace and of `@`. -/
def emailSpecLang (cs : List Char) : Prop :=
  ∃ A B C : List Char, A ≠ [] ∧ B ≠ [] ∧ C ≠ [] ∧
    (∀ c ∈ A, okChar c) ∧ (∀ c ∈ B, okChar c) ∧ (∀ c ∈ C, okChar c) ∧
    cs = A ++ '@' :: (B ++ '.' :: C)

/-! ## LLM adapter (`ask_groq`, source lines 154-166) -/

/-- The literal message `ask_groq` returns when no client is configured. -/
def llmDisabledMsg : String :=
  "LLM is not configured. Please add GROQ_API_KEY in Streamlit secrets."

/-- One completion call: it either returns the optional message content
(`resp.choices[0].message.content`, possibly `None`) or raises an
exception carrying some text, modelled as `Except`. -/
def CompletionCall := String → Except String (Option String)

/-- `ask_groq` (source lines 154-166): without a configured client it
returns the fixed disabled message; otherwise it returns the stripped
content of the completion (with `None` content treated as the empty
string), and any exception `e` is caught and rendered as the text
`LLM error: e`. -/
def ask_groq (client : Option CompletionCall) (user_input : String) : String :=
  match client with
  | none => llmDisabledMsg
  | some call =>
    match call user_input with
    | Except.ok content => (content.getD "").trim
    | Except.error e => "LLM error: " ++ e

/-! ## Claims about the distance routine -/

/-- C1: for every pair of GeoPoints with latitudes in [-90, 90] and
longitudes in [-180, 180], `haversine_km` returns exactly the haversine
value the spec states: with R = 6371.0 km and all angles converted to
radians, a = sin²(Δlat/2) + cos(lat_a)·cos(lat_b)·sin²(Δlon/2) and the
result is 2·R·asin(√a). -/
theorem c1_haversine_matches_spec (lat1 lon1 lat2 lon2 : ℝ)
    (h1 : -90 ≤ lat1) (h2 : lat1 ≤ 90) (h3 : -90 ≤ lat2) (h4 : lat2 ≤ 90)
    (h5 : -180 ≤ lon1) (h6 : lon1 ≤ 180) (h7 : -180 ≤ lon2) (h8 : lon2 ≤ 180) :
    haversine_km lat1 lon1 lat2 lon2 =
      computeDistanceKmSpec lat1 lon1 lat2 lon2 := rfl

/-- Witness for C1 at the Lahore coordinates used in the spec examples. -/
theorem c1_haversine_matches_spec_witness :
    ((-90:ℝ) ≤ 31.5204 ∧ (31.5204:ℝ) ≤ 90 ∧ (-90:ℝ) ≤ 31.5497 ∧
      (31.5497:ℝ) ≤ 90 ∧ (-180:ℝ) ≤ 74.3587 ∧ (74.3587:ℝ) ≤ 180 ∧
      (-180:ℝ) ≤ 74.3436 ∧ (74.3436:ℝ) ≤ 180) ∧
    haversine_km 31.5204 74.3587 31.5497 74.3436 =
      computeDistanceKmSpec 31.5204 74.3587 31.5497 74.3436 :=
  ⟨by norm_num,
    c1_haversine_matches_spec 31.5204 74.3587 31.5497 74.3436
      (by norm_num) (by norm_num) (by norm_num) (by norm_num)
      (by norm_num) (by norm_num) (by norm_num) (by norm_num)⟩

/-- C2 counterexample: the distinct GeoPoints (90, 0) and (90, 10) are not
coincident as coordinate pairs, yet `haversine_km` returns exactly 0 for
them (both denote the north pole), refuting the claim that the result is
0 only for coincident points. -/
theorem c2_counterexample :
    haversine_km 90 0 90 10 = 0 ∧ ¬ (((90:ℝ), (0:ℝ)) = ((90:ℝ), (10:ℝ))) := by
  constructor
  · apply haversine_eq_zero_of_hav_a_eq_zero
    have hz1 : Real.sin (radians ((90:ℝ) - 90) / 2) = 0 := by
      rw [show radians ((90:ℝ) - 90) / 2 = 0 by unfold radians; norm_num]
      exact Real.sin_zero
    have hzc : Real.cos (radians 90) = 0 := by
      rw [show radians (90:ℝ) = Real.pi / 2 by unfold radians; ring]
      exact Real.cos_pi_div_two
    unfold hav_a
    rw [hz1, hzc]
    ring
  · intro h
    have := congrArg Prod.snd h
    norm_num at this

/-- C2 (amended): for valid GeoPoints the distance is non-negative and
symmetric, and it equals 0 exactly when the two coordinate pairs denote
the same point of the sphere: equal pairs, or both at the same pole
(latitude 90 or -90), or equal latitudes with the longitudes 360 degrees
apart (the seam at longitude 180 = -180). -/
theorem c2_nonneg_symm_zero_iff (lat1 lon1 lat2 lon2 : ℝ)
    (ha1 : -90 ≤ lat1) (ha2 : lat1 ≤ 90) (hb1 : -90 ≤ lat2) (hb2 : lat2 ≤ 90)
    (hc1 : -180 ≤ lon1) (hc2 : lon1 ≤ 180) (hd1 : -180 ≤ lon2) (hd2 : lon2 ≤ 180) :
    0 ≤ haversine_km lat1 lon1 lat2 lon2 ∧
    haversine_km lat1 lon1 lat2 lon2 = haversine_km lat2 lon2 lat1 lon1 ∧
    (haversine_km lat1 lon1 lat2 lon2 = 0 ↔
      (lat1 = lat2 ∧ (lon1 = lon2 ∨ lat1 = 90 ∨ lat1 = -90 ∨
        lon1 - lon2 = 360 ∨ lon2 - lon1 = 360))) :=
  ⟨haversine_nonneg lat1 lon1 lat2 lon2,
   (haversine_symm lat1 lon1 lat2 lon2).symm,
   haversine_eq_zero_iff lat1 lon1 lat2 lon2 ha1 ha2 hb1 hb2 hc1 hc2 hd1 hd2⟩

/-- Witness for the amended C2 at the identical valid points (10, 20). -/
theorem c2_nonneg_symm_zero_iff_witness :
    ((-90:ℝ) ≤ 10 ∧ (10:ℝ) ≤ 90 ∧ (-180:ℝ) ≤ 20 ∧ (20:ℝ) ≤ 180) ∧
    (0 ≤ haversine_km 10 20 10 20 ∧
      haversine_km 10 20 10 20 = haversine_km 10 20 10 20 ∧
      (haversine_km 10 20 10 20 = 0 ↔
        ((10:ℝ) = 10 ∧ ((20:ℝ) = 20 ∨ (10:ℝ) = 90 ∨ (10:ℝ) = -90 ∨
          (20:ℝ) - 20 = 360 ∨ (20:ℝ) - 20 = 360)))) :=
  ⟨by norm_num,
    c2_nonneg_symm_zero_iff 10 20 10 20
      (by norm_num) (by norm_num) (by norm_num) (by norm_num)
      (by norm_num) (by norm_num) (by norm_num) (by norm_num)⟩

/-- C9: `haversine_km` cannot raise a division-by-zero error: every
division it performs (`dlat/2` and `dlon/2`) has the nonzero constant
divisor 2, so the checked evaluation always returns a value; and it does
so for all real inputs, out-of-range coordinates included, which are
passed through the arithmetic unvalidated. -/
theorem c9_no_division_by_zero (lat1 lon1 lat2 lon2 : ℝ) :
    haversine_km_checked lat1 lon1 lat2 lon2 =
      some (haversine_km lat1 lon1 lat2 lon2) := by
  unfold haversine_km_checked safeDiv haversine_km hav_a
  norm_num

/-! ## Claims about the ranking and the refinement subset -/

/-- C5: the ranking produced at source line 414 is a permutation of the
input rows, sorted ascending by the stored approximate-distance key with
every `N/A` row after every numerically ranked row, and the sort is
stable: for each key value (the `N/A` marker included), the rows carrying
that key keep their relative input order. -/
theorem c5_ranking_sorted_stable (l : List RankedRow) :
    List.Sorted approxLE (sortRows l) ∧
    List.Perm (sortRows l) l ∧
    (∀ i j : Fin (sortRows l).length, i < j →
      ((sortRows l).get i).approx = none → ((sortRows l).get j).approx = none) ∧
    (∀ k : WithTop ℝ, filterKey k (sortRows l) = filterKey k l) := by
  refine ⟨sortRows_sorted l, sortRows_perm l, ?_, fun k => filterKey_sortRows k l⟩
  intro i j hij hnone
  have hle : approxLE ((sortRows l).get i) ((sortRows l).get j) :=
    (sortRows_sorted l).rel_get_of_lt hij
  have hki : sortKey ((sortRows l).get i) = ⊤ := (sortKey_eq_top_iff _).mpr hnone
  have hkj : sortKey ((sortRows l).get j) = ⊤ := by
    unfold approxLE at hle
    rw [hki] at hle
    exact top_le_iff.mp hle
  exact (sortKey_eq_top_iff _).mp hkj

/-- C3 counterexample: with one numerically ranked row and one `N/A` row,
requesting the top 2 returns both rows — the code takes the head of the
full sorted frame, so the unavailable row is selected and the result has
2 entries although min(n, numeric count) = 1, refuting both halves of the
claim at this input. -/
theorem c3_counterexample :
    selectTopN
        [⟨"City Hospital", "addr 1", some 1, some 7, some 8⟩,
         ⟨"No Location Hospital", "addr 2", none, none, none⟩] 2 =
      [⟨"City Hospital", "addr 1", some 1, some 7, some 8⟩,
       ⟨"No Location Hospital", "addr 2", none, none, none⟩] ∧
    ((⟨"No Location Hospital", "addr 2", none, none, none⟩ :
        RankedRow)).approx = none := by
  have hle : approxLE ⟨"City Hospital", "addr 1", some 1, some 7, some 8⟩
      ⟨"No Location Hospital", "addr 2", none, none, none⟩ := by
    show sortKey _ ≤ sortKey _
    simp only [sortKey]
    exact le_top
  have hsort := sortRows_pair_of_le _ _ hle
  refine ⟨?_, rfl⟩
  unfold selectTopN
  rw [hsort]
  rfl

/-- C3 (amended): `df_sorted.head(top_n)` returns the first
min(n, total count) rows of the full ranking; only when n is at most the
numerically-ranked count is the selection guaranteed to consist of
numerically ranked candidates — when n exceeds that count, `N/A` rows
from the sorted suffix are selected too. -/
theorem c3_selectTopN_amended (l : List RankedRow) (n : ℕ) :
    selectTopN l n = (sortRows l).take n ∧
    (selectTopN l n).length = min n l.length ∧
    (n ≤ numericCount l → ∀ r ∈ selectTopN l n, r.approx ≠ none) := by
  obtain ⟨A, B, hAB, hA, hB⟩ :=
    sorted_split_none (sortRows l) (sortRows_sorted l)
  have hlenA : A.length = numericCount l := by
    have hperm := (sortRows_perm l).filter (fun r => r.approx.isSome)
    rw [hAB, filter_isSome_of_split A B hA hB] at hperm
    exact hperm.length_eq
  refine ⟨rfl, ?_, ?_⟩
  · unfold selectTopN
    rw [List.length_take, (sortRows_perm l).length_eq]
  · intro hn r hr
    unfold selectTopN at hr
    rw [hAB, List.take_append_of_le_length (by rw [hlenA]; exact hn)] at hr
    have hsome := hA r (List.mem_of_mem_take hr)
    intro heq
    rw [heq] at hsome
    simp at hsome

/-- Witness for the amended C3: one located row, n = 1. -/
theorem c3_selectTopN_amended_witness :
    1 ≤ numericCount [⟨"City Hospital", "addr 1", some 1, some 7, some 8⟩] ∧
    ∀ r ∈ selectTopN
        [⟨"City Hospital", "addr 1", some 1, some 7, some 8⟩] 1,
      r.approx ≠ none :=
  ⟨by simp [numericCount],
    (c3_selectTopN_amended
        [⟨"City Hospital", "addr 1", some 1, some 7, some 8⟩] 1).2.2
      (by simp [numericCount])⟩

/-- C6: attaching driving distances (source lines 415-422) pairs each
selected row, in its existing ranking position, with one driving-distance
cell; the rows themselves (their approximate distances included) are left
unchanged and in order, and every row with numeric coordinates for which
the routing adapter returns absent gets the unavailable driving marker. -/
theorem c6_routing_failure_per_candidate (route : ℝ → ℝ → ℝ → ℝ → Option ℝ)
    (olat olon : ℝ) (rows : List RankedRow) :
    (attachDriving route olat olon rows).map Prod.fst = rows ∧
    List.Forall₂ (fun r d => d.1 = r ∧
      (∀ la lo, r.lat = some la → r.lon = some lo →
        route olat olon la lo = none → d.2 = none)) rows
      (attachDriving route olat olon rows) := by
  induction rows with
  | nil => exact ⟨rfl, List.Forall₂.nil⟩
  | cons r rs ih =>
    obtain ⟨h1, h2⟩ := ih
    constructor
    · simp only [attachDriving, List.map_cons]
      rw [h1]
    · simp only [attachDriving]
      refine List.Forall₂.cons ⟨rfl, ?_⟩ h2
      intro la lo hla hlo hroute
      simp only [hla, hlo]
      rw [hroute]
      rfl

/-- Witness for C6: a single located row with a routing adapter that
always fails; the attached output keeps the row in place and marks the
driving distance unavailable. -/
theorem c6_routing_failure_per_candidate_witness :
    (attachDriving (fun _ _ _ _ => none) 0 0
        [⟨"H", "A", some 1, some 2, some 3⟩]).map Prod.fst =
      [(⟨"H", "A", some 1, some 2, some 3⟩ : RankedRow)] ∧
    List.Forall₂ (fun (r : RankedRow) (d : RankedRow × Option ℝ) => d.1 = r ∧
      (∀ la lo, r.lat = some la → r.lon = some lo →
        (fun _ _ _ _ => (none : Option ℝ)) (0:ℝ) (0:ℝ) la lo = none →
          d.2 = none))
      [⟨"H", "A", some 1, some 2, some 3⟩]
      (attachDriving (fun _ _ _ _ => none) 0 0
        [⟨"H", "A", some 1, some 2, some 3⟩]) :=
  c6_routing_failure_per_candidate (fun _ _ _ _ => none) 0 0
    [⟨"H", "A", some 1, some 2, some 3⟩]

/-- C10: a coordinate equal to exactly 0.0 is treated as absent by the
Python truthiness guards: a candidate whose latitude or longitude is 0
receives the `N/A` distance marker although its location is present and
well formed, and a geocoding result with latitude or longitude 0 fails the
`if lat and lon` guard, so the handler treats it as a geocoding failure. -/
theorem c10_zero_coordinate_treated_absent (olat olon la lo : ℝ)
    (n a : String) :
    (buildRow olat olon ⟨n, a, some 0, some lo⟩).approx = none ∧
    (buildRow olat olon ⟨n, a, some la, some 0⟩).approx = none ∧
    ¬ geocodeUsable (some 0) (some lo) ∧
    ¬ geocodeUsable (some la) (some 0) := by
  refine ⟨?_, ?_, ?_, ?_⟩
  · unfold buildRow
    simp only
    rw [if_neg (fun h => h.1 rfl)]
  · unfold buildRow
    simp only
    rw [if_neg (fun h => h.2 rfl)]
  · rintro ⟨h, -⟩
    exact h rfl
  · rintro ⟨-, h⟩
    exact h rfl

lemma haversine_far_value :
    haversine_km 1 5 1.009 5 = 6371.0 * radians (1.009 - 1) :=
  haversine_same_lon 1 1.009 5 (by norm_num) (by norm_num)

lemma haversine_near_value :
    haversine_km 1 5 1.00899 5 = 6371.0 * radians (1.00899 - 1) :=
  haversine_same_lon 1 1.00899 5 (by norm_num) (by norm_num)

lemma round2_far : round2 (haversine_km 1 5 1.009 5) = 1 := by
  rw [haversine_far_value]
  rw [round2_eq_of_bounds (6371.0 * radians (1.009 - 1)) 100 ?_ ?_]
  · norm_num
  · unfold radians
    nlinarith [Real.pi_gt_d4, Real.pi_lt_d4]
  · unfold radians
    nlinarith [Real.pi_gt_d4, Real.pi_lt_d4]

lemma round2_near : round2 (haversine_km 1 5 1.00899 5) = 1 := by
  rw [haversine_near_value]
  rw [round2_eq_of_bounds (6371.0 * radians (1.00899 - 1)) 100 ?_ ?_]
  · norm_num
  · unfold radians
    nlinarith [Real.pi_gt_d4, Real.pi_lt_d4]
  · unfold radians
    nlinarith [Real.pi_gt_d4, Real.pi_lt_d4]

/-- C4 counterexample: from the origin (1, 5), the hospitals at
(1.009, 5) and (1.00899, 5) have distinct full-precision haversine
distances that round to the same 2-decimal value 1.00.  Listing the
farther one first, the code keeps it ranked first (stable sort on the
stored rounded key), although its full-precision distance is strictly
larger than that of the second row: the full-precision value is not the
sort key, because only the rounded value is stored and sorted. -/
theorem c4_counterexample :
    (sortRows (buildRows 1 5
        [⟨"Far Hospital", "addr F", some 1.009, some 5⟩,
         ⟨"Near Hospital", "addr N", some 1.00899, some 5⟩])).map
        RankedRow.name = ["Far Hospital", "Near Hospital"] ∧
    haversine_km 1 5 1.00899 5 < haversine_km 1 5 1.009 5 := by
  have bFar : buildRow 1 5 ⟨"Far Hospital", "addr F", some 1.009, some 5⟩ =
      ⟨"Far Hospital", "addr F", some 1, some 1.009, some 5⟩ := by
    unfold buildRow
    simp only
    rw [if_pos (by norm_num : (1.009:ℝ) ≠ 0 ∧ (5:ℝ) ≠ 0), round2_far]
  have bNear : buildRow 1 5 ⟨"Near Hospital", "addr N", some 1.00899, some 5⟩ =
      ⟨"Near Hospital", "addr N", some 1, some 1.00899, some 5⟩ := by
    unfold buildRow
    simp only
    rw [if_pos (by norm_num : (1.00899:ℝ) ≠ 0 ∧ (5:ℝ) ≠ 0), round2_near]
  have hrows : buildRows 1 5
      [⟨"Far Hospital", "addr F", some 1.009, some 5⟩,
       ⟨"Near Hospital", "addr N", some 1.00899, some 5⟩] =
      [⟨"Far Hospital", "addr F", some 1, some 1.009, some 5⟩,
       ⟨"Near Hospital", "addr N", some 1, some 1.00899, some 5⟩] := by
    unfold buildRows
    rw [List.map_cons, List.map_cons, List.map_nil, bFar, bNear]
  have hle : approxLE ⟨"Far Hospital", "addr F", some 1, some 1.009, some 5⟩
      ⟨"Near Hospital", "addr N", some 1, some 1.00899, some 5⟩ := by
    show sortKey _ ≤ sortKey _
    simp only [sortKey]
    exact le_refl _
  constructor
  · rw [hrows, sortRows_pair_of_le _ _ hle]
    rfl
  · rw [haversine_far_value, haversine_near_value]
    unfold radians
    nlinarith [Real.pi_gt_d4]

/-- C4 (amended): for each located candidate the stored
approximateDistanceKm is `round2` of the haversine distance — the value is
rounded when stored, full precision is not retained — and the ranking
sorts the rows by this stored rounded key. -/
theorem c4_rounded_value_stored_and_sorted (olat olon hlat hlon : ℝ)
    (n a : String) (h1 : hlat ≠ 0) (h2 : hlon ≠ 0) :
    (buildRow olat olon ⟨n, a, some hlat, some hlon⟩).approx =
      some (round2 (haversine_km olat olon hlat hlon)) ∧
    ∀ l : List RankedRow, List.Sorted approxLE (sortRows l) := by
  constructor
  · unfold buildRow
    simp only
    rw [if_pos ⟨h1, h2⟩]
  · exact fun l => sortRows_sorted l

/-- Witness for the amended C4 at a concrete located candidate. -/
theorem c4_rounded_value_stored_and_sorted_witness :
    ((2:ℝ) ≠ 0 ∧ (3:ℝ) ≠ 0) ∧
    ((buildRow 0 1 ⟨"H", "A", some 2, some 3⟩).approx =
      some (round2 (haversine_km 0 1 2 3)) ∧
    ∀ l : List RankedRow, List.Sorted approxLE (sortRows l)) :=
  ⟨by norm_num,
    c4_rounded_value_stored_and_sorted 0 1 2 3 "H" "A"
      (by norm_num) (by norm_num)⟩

/-! ### Helper lemmas about the email pattern -/

lemma okChar_ne_at {c : Char} (h : okChar c = true) : (c != '@') = true := by
  unfold okChar at h
  cases heq : c == '@' with
  | false => simp [bne, heq]
  | true =>
    rw [heq] at h
    simp at h

lemma split_at_first_at (A D : List Char) (hA : ∀ c ∈ A, okChar c = true) :
    (A ++ '@' :: D).takeWhile (fun c => c != '@') = A ∧
    (A ++ '@' :: D).dropWhile (fun c => c != '@') = '@' :: D := by
  induction A with
  | nil =>
    constructor
    · rw [List.nil_append]
      exact List.takeWhile_cons_of_neg (p := fun c => c != '@') (by simp)
    · rw [List.nil_append]
      exact List.dropWhile_cons_of_neg (p := fun c => c != '@') (by simp)
  | cons a A ih =>
    have ha : (a != '@') = true := okChar_ne_at (hA a (List.mem_cons_self a A))
    obtain ⟨ih1, ih2⟩ := ih (fun c hc => hA c (List.mem_cons_of_mem a hc))
    constructor
    · rw [List.cons_append,
        List.takeWhile_cons_of_pos (p := fun c => c != '@') ha, ih1]
    · rw [List.cons_append,
        List.dropWhile_cons_of_pos (p := fun c => c != '@') ha, ih2]

lemma interiorDot_iff (D : List Char) :
    interiorDot D = true ↔
      ∃ B C : List Char, B ≠ [] ∧ C ≠ [] ∧ D = B ++ '.' :: C := by
  constructor
  · intro h
    cases D with
    | nil => simp [interiorDot] at h
    | cons d rest =>
      unfold interiorDot at h
      rw [List.any_eq_true] at h
      obtain ⟨c, hcmem, hc⟩ := h
      rw [beq_iff_eq] at hc
      subst hc
      have hrest : rest ≠ [] := by
        rintro rfl
        simp at hcmem
      obtain ⟨s, t, hst⟩ := List.append_of_mem hcmem
      obtain ⟨g, hg⟩ : ∃ g, rest = rest.dropLast ++ [g] :=
        ⟨rest.getLast hrest, (List.dropLast_append_getLast hrest).symm⟩
      refine ⟨d :: s, t ++ [g], by simp, by simp, ?_⟩
      conv_lhs => rw [hg]
      rw [hst]
      simp [List.append_assoc]
  · rintro ⟨B, C, hB, hC, rfl⟩
    cases B with
    | nil => exact absurd rfl hB
    | cons b B' =>
      cases C with
      | nil => exact absurd rfl hC
      | cons c0 C' =>
        rw [List.cons_append]
        show (B' ++ '.' :: c0 :: C').dropLast.any (fun c => c == '.') = true
        rw [List.dropLast_append_of_ne_nil B' (List.cons_ne_nil '.' (c0 :: C')),
          List.dropLast_cons_of_ne_nil (List.cons_ne_nil c0 C'), List.any_eq_true]
        exact ⟨'.', by simp, by simp⟩

lemma coreMatch_iff (cs : List Char) : coreMatch cs = true ↔ emailSpecLang cs := by
  constructor
  · intro h
    have hsplit := List.takeWhile_append_dropWhile (p := fun c => c != '@') (l := cs)
    rw [coreMatch_eq] at h
    cases hdrop : cs.dropWhile (fun c => c != '@') with
    | nil =>
      rw [hdrop] at h
      simp at h
    | cons x D =>
      rw [hdrop] at h
      simp only [Bool.and_eq_true, beq_iff_eq, Bool.not_eq_true',
        List.isEmpty_eq_false, List.all_eq_true] at h
      obtain ⟨⟨⟨⟨hx, hAne⟩, hAok⟩, hDok⟩, hdot⟩ := h
      subst hx
      have hcs : cs = cs.takeWhile (fun c => c != '@') ++ '@' :: D := by
        rw [hdrop] at hsplit
        exact hsplit.symm
      obtain ⟨B, C, hB, hC, hD⟩ := (interiorDot_iff D).mp hdot
      rw [hD] at hDok
      refine ⟨cs.takeWhile (fun c => c != '@'), B, C, hAne, hB, hC, hAok,
        fun c hc => hDok c (List.mem_append_left _ hc),
        fun c hc => hDok c (List.mem_append_right _ (List.mem_cons_of_mem _ hc)),
        ?_⟩
      conv_lhs => rw [hcs, hD]
  · rintro ⟨A, B, C, hA, hB, hC, hAok, hBok, hCok, rfl⟩
    have hsplit := split_at_first_at A (B ++ '.' :: C) hAok
    rw [coreMatch_eq, hsplit.2, hsplit.1]
    have hallD : (B ++ '.' :: C).all okChar = true := by
      rw [List.all_eq_true]
      intro c hc
      rcases List.mem_append.mp hc with hc | hc
      · exact hBok c hc
      · rcases List.mem_cons.mp hc with rfl | hc
        · decide
        · exact hCok c hc
    have hallA : A.all okChar = true := List.all_eq_true.mpr hAok
    have hdot : interiorDot (B ++ '.' :: C) = true :=
      (interiorDot_iff _).mpr ⟨B, C, hB, hC, rfl⟩
    have hne : A.isEmpty = false := by
      rw [List.isEmpty_eq_false]
      exact hA
    simp [hne, hallA, hallD, hdot]

/-! ## Claims about email validation and the LLM adapter -/

/-- C7 counterexample: `EMAIL_RE.match` accepts the string
user@example.com followed by a newline, because Python `$` also matches
just before a final newline; that string contains whitespace, so the
claimed language (local@domain.tld with no whitespace at all) does not
contain it, refuting the claim that exactly that language is accepted. -/
theorem c7_counterexample :
    email_re_accepts ("user@example.com\n".toList) = true ∧
    ¬ emailSpecLang ("user@example.com\n".toList) := by
  constructor
  · decide
  · rw [← coreMatch_iff]
    decide

/-- C7 (amended): `EMAIL_RE.match` accepts exactly the strings of the form
local-part `@` domain-part `.` tld-part — nonempty parts, free of
whitespace and of `@` — optionally followed by one final newline (an
artifact of Python `$`).  In particular it accepts user@example.com and
rejects user@@example.com and "user example.com". -/
theorem c7_email_regex_language :
    (∀ cs : List Char, email_re_accepts cs = true ↔
      (emailSpecLang cs ∨
        ∃ cs' : List Char, emailSpecLang cs' ∧ cs = cs' ++ ['\n'])) ∧
    email_re_accepts ("user@example.com".toList) = true ∧
    email_re_accepts ("user@@example.com".toList) = false ∧
    email_re_accepts ("user example.com".toList) = false := by
  refine ⟨?_, by decide, by decide, by decide⟩
  intro cs
  unfold email_re_accepts
  rw [Bool.or_eq_true, coreMatch_iff]
  apply or_congr Iff.rfl
  cases hlast : cs.getLast? with
  | none =>
    simp only [hlast]
    constructor
    · intro h
      simp at h
    · rintro ⟨cs', hcs', rfl⟩
      rw [List.getLast?_concat] at hlast
      cases hlast
  | some c =>
    simp only [hlast]
    rw [Bool.and_eq_true, beq_iff_eq, coreMatch_iff]
    constructor
    · rintro ⟨rfl, hcore⟩
      refine ⟨cs.dropLast, hcore, ?_⟩
      exact (List.dropLast_append_getLast? '\n' (Option.mem_def.mpr hlast)).symm
    · rintro ⟨cs', hcs', rfl⟩
      rw [List.getLast?_concat] at hlast
      cases hlast
      rw [List.dropLast_concat]
      exact ⟨rfl, hcs'⟩

/-- C8: with no configured client, `ask_groq` returns the literal fixed
disabled-feature message for every input; and when the completion call
raises, the exception is caught and returned as the text `LLM error: e`,
never propagated — `ask_groq` is a total function into strings. -/
theorem c8_ask_groq_disabled_and_caught :
    (∀ s : String, ask_groq none s =
      "LLM is not configured. Please add GROQ_API_KEY in Streamlit secrets.") ∧
    (∀ (call : CompletionCall) (s e : String), call s = Except.error e →
      ask_groq (some call) s = "LLM error: " ++ e) := by
  refine ⟨fun s => rfl, fun call s e h => ?_⟩
  show (match call s with
        | Except.ok content => (content.getD "").trim
        | Except.error e => "LLM error: " ++ e) = "LLM error: " ++ e
  rw [h]

/-- Witness for C8 with a call that always raises. -/
theorem c8_ask_groq_witness :
    ((fun _ => Except.error "boom" : CompletionCall) "hi" =
      Except.error "boom") ∧
    ask_groq (some (fun _ => Except.error "boom")) "hi" =
      "LLM error: " ++ "boom" :=
  ⟨rfl, (c8_ask_groq_disabled_and_caught).2 (fun _ => Except.error "boom")
    "hi" "boom" rfl⟩

end HealthApp
